import Mathlib

/-!
# Verification of the Math CLI execution engine

A shallow embedding, in Lean 4, of the variable store, user-function
registry, plugin manager (execution engine and plugin discovery) and
script runner of the Math CLI repository, together with theorems checking
the repository's natural-language specification against the code.

Embedding conventions:

* Python dictionaries are modelled as association lists (`Dict`); only the
  lookup / insert / erase operations the code uses are modelled.
* Python values flowing through the engine are modelled by `Value`
  (`None`, `int`, `float`, `bool`, `str`).  Python `float` is modelled as
  an exact decimal (see `PyFloat`): no claim under verification depends on
  IEEE-754 rounding.  `list` / `dict` / numpy / pandas values never arise
  in the verified code paths and are not modelled.
* Python exceptions are modelled as a pair of a type name and a message
  (`PyErr`); functions that can raise return `Except PyErr _`, and the
  stateful interpreter threads the (process-wide singleton) store
  explicitly, returning it on success and failure alike.
* String handling (whitespace, lowercasing, identifier syntax, numeric
  parsing) models the ASCII fragment of Python's semantics; the code under
  test only feeds it command-line tokens.
-/

set_option autoImplicit false

namespace MathCli

/-! ## Character and string utilities (ASCII models of the Python builtins) -/

/-- ASCII model of Python's whitespace test used by `str.strip` / `str.split`. -/
def pyIsSpace (c : Char) : Bool :=
  c = ' ' ∨ c = '\t' ∨ c = '\n' ∨ c = '\r' ∨ c = Char.ofNat 11 ∨ c = Char.ofNat 12

/-- ASCII model of `str.lower` on a single character. -/
def asciiLower (c : Char) : Char :=
  if 'A' ≤ c ∧ c ≤ 'Z' then Char.ofNat (c.toNat + 32) else c

/-- ASCII model of Python's `str.lower`. -/
def pyLower (s : String) : String :=
  String.mk (s.toList.map asciiLower)

/-- Model of Python's `c in s` membership test for a single character. -/
def strContainsChar (s : String) (c : Char) : Bool :=
  s.toList.contains c

/-- `true` iff the string starts with the given character (model of
`str.startswith` for the one-character markers `$` and `#`). -/
def startsWithChar (s : String) (c : Char) : Bool :=
  match s.toList with
  | [] => false
  | a :: _ => a = c

/-- Model of Python's `str.strip()` (no argument): remove leading and
trailing whitespace. -/
def pyStrip (s : String) : String :=
  String.mk ((s.toList.dropWhile pyIsSpace).reverse.dropWhile pyIsSpace).reverse

/-- Split a character list at every occurrence of characters satisfying `p`,
keeping empty runs.  Helper for the `str.split` models. -/
def splitCharsBy (p : Char → Bool) : List Char → List (List Char)
  | [] => [[]]
  | c :: cs =>
    let r := splitCharsBy p cs
    if p c then [] :: r else (c :: r.headI) :: r.tail

/-- Model of Python's `str.split()` with no separator: split on whitespace
runs and drop empty tokens. -/
def pySplitWS (s : String) : List String :=
  ((splitCharsBy pyIsSpace s.toList).filter (fun l => l ≠ [])).map String.mk

/-- Model of Python's `str.split('\n')`: split at every newline, keeping
empty lines. -/
def pySplitLines (s : String) : List String :=
  (splitCharsBy (fun c => c = '\n') s.toList).map String.mk

/-- Bool-valued prefix test on character lists. -/
def listIsPrefix : List Char → List Char → Bool
  | [], _ => true
  | _ :: _, [] => false
  | a :: as, b :: bs => a == b && listIsPrefix as bs

/-- Model of Python's `str.endswith`. -/
def strEndsWith (s suf : String) : Bool :=
  listIsPrefix suf.toList.reverse s.toList.reverse

/-! ## Values and exceptions -/

/-- A Python `float` is modelled as the exact decimal `mantissa * 10 ^ exp10`
produced by parsing its source token: no claim under verification depends
on IEEE-754 rounding, so the exact decimal is a faithful abstraction. -/
structure PyFloat where
  mantissa : Int
  exp10 : Int
  deriving Repr, DecidableEq

/-- The Python values flowing through the engine. -/
inductive Value where
  /-- Python `None`. -/
  | vnone : Value
  /-- A Python `int`. -/
  | vint : Int → Value
  /-- A Python `float`. -/
  | vfloat : PyFloat → Value
  /-- A Python `bool`. -/
  | vbool : Bool → Value
  /-- A Python `str`. -/
  | vstr : String → Value
  deriving Repr, DecidableEq

/-- A raised Python exception: its class name and its message. -/
structure PyErr where
  ty : String
  msg : String
  deriving Repr, DecidableEq

/-! ## Dictionaries as association lists -/

/-- A Python `dict` with string keys, as an association list. -/
abbrev Dict (α : Type) := List (String × α)

/-- `d[k]` lookup, returning `none` when the key is absent. -/
def dictLookup {α : Type} : Dict α → String → Option α
  | [], _ => none
  | (k', v) :: rest, k => if k' = k then some v else dictLookup rest k

/-- Python's `k in d`. -/
def dictHas {α : Type} (d : Dict α) (k : String) : Bool :=
  (dictLookup d k).isSome

/-- `d[k] = v`: replace the binding of `k` if present, else add it. -/
def dictInsert {α : Type} : Dict α → String → α → Dict α
  | [], k, v => [(k, v)]
  | (k', v') :: rest, k, v =>
    if k' = k then (k, v) :: rest else (k', v') :: dictInsert rest k v

/-- `del d[k]`: remove the binding of `k`. -/
def dictErase {α : Type} : Dict α → String → Dict α
  | [], _ => []
  | (k', v') :: rest, k =>
    if k' = k then dictErase rest k else (k', v') :: dictErase rest k

/-! ## The variable store (`core/variables.py`, class `VariableStore`)

The scope stack is modelled with the *head* of the list as the innermost
scope: Python appends new scopes at the end and addresses the innermost
one as `_scope_stack[-1]` / iterates `reversed(_scope_stack)`.
The persistence path and the JSON file I/O behind `_save_persistent_vars` /
`_load_persistent_vars` (both of which swallow their errors) are not
modelled; `persistent_vars` models the in-memory `_persistent_vars` table. -/

structure VariableStore where
  global_vars : Dict Value
  scope_stack : List (Dict Value)
  persistent_vars : Dict Value
  deriving Repr, DecidableEq

/-- Remove a single leading `$` sigil, as done by
`if name.startswith('$'): name = name[1:]` throughout `variables.py`. -/
def stripSigil (s : String) : String :=
  match s.toList with
  | '$' :: rest => String.mk rest
  | _ => s

namespace VariableStore

/-- `VariableStore.set` (`variables.py:70`).  Validates the name, strips a
leading sigil, writes to the innermost scope if one is active, else to the
global table; if `persistent`, also mirrors the binding to the persistent
table (the immediate flush to disk is I/O and not modelled). -/
def set (store : VariableStore) (name : String) (value : Value)
    (persistent : Bool) : Except PyErr VariableStore :=
  if name = "" then
    .error ⟨"ValueError", "Variable name must be a non-empty string"⟩
  else
    let n := stripSigil name
    let store1 :=
      match store.scope_stack with
      | top :: rest => { store with scope_stack := dictInsert top n value :: rest }
      | [] => { store with global_vars := dictInsert store.global_vars n value }
    if persistent then
      .ok { store1 with persistent_vars := dictInsert store1.persistent_vars n value }
    else
      .ok store1

/-- Search the scope stack, innermost scope first (the
`for scope in reversed(self._scope_stack)` loop of `get`). -/
def lookupScopes : List (Dict Value) → String → Option Value
  | [], _ => none
  | sc :: rest, n =>
    match dictLookup sc n with
    | some v => some v
    | none => lookupScopes rest n

/-- `VariableStore.get` (`variables.py:98`).  Strips a leading sigil, then
searches the scope stack innermost first, then the global table, then the
persistent table.  `none` models the `NameError` raised when the name is
found nowhere. -/
def get (store : VariableStore) (name : String) : Option Value :=
  let n := stripSigil name
  match lookupScopes store.scope_stack n with
  | some v => some v
  | none =>
    match dictLookup store.global_vars n with
    | some v => some v
    | none => dictLookup store.persistent_vars n

/-- `VariableStore.has` (`variables.py:128`).  Same stripping and search
tiers as `get`; a pure membership test. -/
def has (store : VariableStore) (name : String) : Bool :=
  let n := stripSigil name
  store.scope_stack.any (fun sc => dictHas sc n)
    || dictHas store.global_vars n || dictHas store.persistent_vars n

/-- `VariableStore.delete` (`variables.py:147`).  Strips a leading sigil;
deletes from the innermost scope if the name is bound there
(`if self._scope_stack and name in self._scope_stack[-1]`), else from the
global table, else from the persistent table, else raises `NameError`. -/
def delete (store : VariableStore) (name : String) : Except PyErr VariableStore :=
  let n := stripSigil name
  let nonLocal : Except PyErr VariableStore :=
    if dictHas store.global_vars n then
      .ok { store with global_vars := dictErase store.global_vars n }
    else if dictHas store.persistent_vars n then
      .ok { store with persistent_vars := dictErase store.persistent_vars n }
    else
      .error ⟨"NameError", "Variable '$" ++ n ++ "' is not defined"⟩
  match store.scope_stack with
  | top :: rest =>
    if dictHas top n then
      .ok { store with scope_stack := dictErase top n :: rest }
    else nonLocal
  | [] => nonLocal

/-- `VariableStore.push_scope` (`variables.py:208`). -/
def push_scope (store : VariableStore) : VariableStore :=
  { store with scope_stack := [] :: store.scope_stack }

/-- `VariableStore.pop_scope` (`variables.py:212`): popping an empty stack
is a no-op (`List.tail [] = []`). -/
def pop_scope (store : VariableStore) : VariableStore :=
  { store with scope_stack := store.scope_stack.tail }

/-- `VariableStore.format_value` (`variables.py:217`), restricted to the
value shapes of the model (`bool` is tested before `int`, numbers render
via `str`, strings are quoted; `None` falls to the final
`str(type(value).__name__)` branch). -/
def format_value (value : Value) : String :=
  match value with
  | .vbool b => if b then "true" else "false"
  | .vint n => toString n
  | .vfloat q => toString q.mantissa ++ "e" ++ toString q.exp10
  | .vstr s => "\"" ++ s ++ "\""
  | .vnone => "NoneType"

end VariableStore

/-! ## Python numeric-string parsing (models of `int(s)` and `float(s)`)

Models of the CPython string-to-number constructors on their ASCII
fragment: optional surrounding whitespace, an optional sign, digit groups
that may contain single underscores between digits.  Unicode digits and
explicit bases are never produced by the CLI tokenizer and are not
modelled.  `float` strings `inf`/`infinity`/`nan` are not modelled: the
only caller (`_convert_string_to_type`) reaches `float()` only for
strings containing `'.'` or `'e'`/`'E'`, which those words do not. -/

/-- A non-empty run of ASCII digits in which single underscores may appear
between two digits (Python numeric-literal underscore rule).  The boolean
argument tracks whether the previous character was a digit. -/
def digitsOkAux : List Char → Bool
  | [] => true
  | '_' :: c :: cs => c.isDigit && digitsOkAux cs
  | '_' :: [] => false
  | c :: cs => c.isDigit && digitsOkAux cs

/-- Valid digit group: non-empty, starts with a digit, underscores only
between digits. -/
def digitsOk : List Char → Bool
  | [] => false
  | c :: cs => c.isDigit && digitsOkAux cs

/-- Numeric value of a digit group, ignoring underscores. -/
def digitsVal (cs : List Char) : Nat :=
  cs.foldl (fun acc c => if c = '_' then acc else acc * 10 + (c.toNat - '0'.toNat)) 0

/-- Digits of the group with underscores removed (used for the scale of a
fractional part). -/
def pureDigits (cs : List Char) : List Char :=
  cs.filter (fun c => c ≠ '_')

/-- Model of Python's `int(s)` for a decimal string: strip whitespace,
optional sign, digit group. -/
def pyParseInt (s : String) : Option Int :=
  let cs := (pyStrip s).toList
  match cs with
  | '+' :: rest => if digitsOk rest then some (digitsVal rest : Int) else none
  | '-' :: rest => if digitsOk rest then some (-(digitsVal rest : Int)) else none
  | _ => if digitsOk cs then some (digitsVal cs : Int) else none

/-- Parse the mantissa of a float string: `digits`, `digits.`, `digits.digits`
or `.digits`, each digit group obeying the underscore rule.  The decimal
value is `mantissa * 10 ^ exp10`. -/
def parseMantissa (cs : List Char) : Option PyFloat :=
  let intPart := cs.takeWhile (fun c => c ≠ '.')
  let rest := cs.dropWhile (fun c => c ≠ '.')
  match rest with
  | [] => if digitsOk intPart then some ⟨(digitsVal intPart : Int), 0⟩ else none
  | _ :: frac =>
    if frac.contains '.' then none
    else
      let fracLen := (pureDigits frac).length
      let combined : Int := (digitsVal intPart : Int) * ((10 : Int) ^ fracLen)
        + (digitsVal frac : Int)
      if intPart = [] then
        if digitsOk frac then some ⟨(digitsVal frac : Int), -(fracLen : Int)⟩ else none
      else if frac = [] then
        if digitsOk intPart then some ⟨(digitsVal intPart : Int), 0⟩ else none
      else
        if digitsOk intPart && digitsOk frac then
          some ⟨combined, -(fracLen : Int)⟩
        else none

/-- Parse an exponent: optional sign followed by a digit group. -/
def parseExponent (cs : List Char) : Option Int :=
  match cs with
  | '+' :: rest => if digitsOk rest then some (digitsVal rest : Int) else none
  | '-' :: rest => if digitsOk rest then some (-(digitsVal rest : Int)) else none
  | _ => if digitsOk cs then some (digitsVal cs : Int) else none

/-- Model of Python's `float(s)` on decimal/scientific notation: strip
whitespace, optional sign, mantissa, optional `e`/`E` exponent. -/
def pyParseFloat (s : String) : Option PyFloat :=
  let cs := (pyStrip s).toList
  let signed : Int × List Char :=
    match cs with
    | '+' :: rest => (1, rest)
    | '-' :: rest => (-1, rest)
    | _ => (1, cs)
  let mant := signed.2.takeWhile (fun c => c ≠ 'e' ∧ c ≠ 'E')
  let expRest := signed.2.dropWhile (fun c => c ≠ 'e' ∧ c ≠ 'E')
  match expRest with
  | [] => (parseMantissa mant).map (fun m => ⟨signed.1 * m.mantissa, m.exp10⟩)
  | _ :: expPart =>
    match parseMantissa mant, parseExponent expPart with
    | some m, some e => some ⟨signed.1 * m.mantissa, m.exp10 + e⟩
    | _, _ => none

/-! ## User-defined functions (`core/user_functions.py`) -/

/-- `UserFunction` (`user_functions.py:10`): name, parameter list and a
command-string body such as `"multiply $x $x"`. -/
structure UserFunction where
  name : String
  parameters : List String
  body : String
  description : Option String := none
  deriving Repr, DecidableEq

/-- ASCII model of Python's `str.isidentifier`: a letter or underscore
followed by letters, digits or underscores.  (Python accepts keywords
here: `isidentifier` is purely lexical.) -/
def isPyIdentifier (s : String) : Bool :=
  match s.toList with
  | [] => false
  | c :: cs => (c.isAlpha || c = '_') && cs.all (fun d => d.isAlphanum || d = '_')

/-- `FunctionRegistry` (`user_functions.py:24`): user functions keyed by
name, independent of the built-in operation table. -/
structure FunctionRegistry where
  functions : Dict UserFunction
  deriving Repr, DecidableEq

namespace FunctionRegistry

/-- `FunctionRegistry.define` (`user_functions.py:31`): validates that the
name is a non-empty identifier, then stores (or silently overwrites) the
function.  No check against built-in operation names is performed. -/
def define (reg : FunctionRegistry) (name : String) (parameters : List String)
    (body : String) (description : Option String := none) :
    Except PyErr FunctionRegistry :=
  if name = "" then
    .error ⟨"ValueError", "Function name must be a non-empty string"⟩
  else if ¬ isPyIdentifier name then
    .error ⟨"ValueError", "Invalid function name: " ++ name⟩
  else
    .ok ⟨dictInsert reg.functions name ⟨name, parameters, body, description⟩⟩

/-- `FunctionRegistry.get` (`user_functions.py:59`): `none` when undefined. -/
def getFn (reg : FunctionRegistry) (name : String) : Option UserFunction :=
  dictLookup reg.functions name

/-- `FunctionRegistry.exists` (`user_functions.py:70`). -/
def existsFn (reg : FunctionRegistry) (name : String) : Bool :=
  dictHas reg.functions name

end FunctionRegistry

/-! ## The plugin manager (`core/plugin_manager.py`) -/

/-- A registered operation implementation (a `MathOperation` subclass).
Its `execute` classmethod is modelled as a function taking the
process-wide variable store explicitly (Python reaches it through the
`get_variable_store()` singleton) together with the positional and
keyword arguments, and returning the possibly-updated store and either a
result value or a raised exception. -/
structure OpClass where
  name : String
  exec : VariableStore → List Value → Dict Value → VariableStore × Except PyErr Value

/-- `PluginManager` state: the operation table and the variable
substitution switch (`_variable_substitution_enabled`, `True` at
construction).  The plugin directory list only matters to discovery and is
passed to the discovery model directly. -/
structure PluginManager where
  operations : Dict OpClass
  variable_substitution_enabled : Bool := true

/-- `PluginManager.register_operation` (`plugin_manager.py:17`): the
subclass check is enforced by typing here; an operation without a name
raises `ValueError`. -/
def register_operation (pm : PluginManager) (op : OpClass) :
    Except PyErr PluginManager :=
  if op.name = "" then
    .error ⟨"ValueError", "Operation does not have a name"⟩
  else
    .ok { pm with operations := dictInsert pm.operations op.name op }

/-- `PluginManager._convert_string_to_type` (`plugin_manager.py:144`):
try `int` when the string contains neither `'.'` nor `'e'`/`'E'`, else try
`float`; on `ValueError` check for case-insensitive `true`/`false`, else
keep the string. -/
def convert_string_to_type (value : String) : Value :=
  let boolOrStr : Value :=
    if pyLower value = "true" then .vbool true
    else if pyLower value = "false" then .vbool false
    else .vstr value
  if ¬ strContainsChar value '.' ∧ ¬ strContainsChar (pyLower value) 'e' then
    match pyParseInt value with
    | some n => .vint n
    | none => boolOrStr
  else
    match pyParseFloat value with
    | some q => .vfloat q
    | none => boolOrStr

/-- One argument of the substitution pass of
`PluginManager._substitute_variables` (`plugin_manager.py:168`): a string
starting with `$` is looked up in the store (the literal passes through
on `NameError`); any other string is converted by
`_convert_string_to_type`; non-strings pass through. -/
def substOne (store : VariableStore) (arg : Value) : Value :=
  match arg with
  | .vstr s =>
    if startsWithChar s '$' then
      match store.get s with
      | some v => v
      | none => .vstr s
    else convert_string_to_type s
  | v => v

/-- `PluginManager._substitute_variables` (`plugin_manager.py:168`):
when substitution is enabled, apply `substOne` to every positional and
keyword argument.  (The `ImportError` fallback for a missing variable
module is an environment failure and is not modelled.) -/
def substitute_variables (pm : PluginManager) (store : VariableStore)
    (args : List Value) (kwargs : Dict Value) : List Value × Dict Value :=
  if ¬ pm.variable_substitution_enabled then (args, kwargs)
  else (args.map (substOne store), kwargs.map (fun kv => (kv.1, substOne store kv.2)))

/-- The parameter-binding loop of user-function dispatch
(`for param, arg in zip(func.parameters, substituted_args): store.set(param, arg)`).
Threads the store; a raised `ValueError` from `set` aborts the loop. -/
def bindParams : VariableStore → List (String × Value) →
    VariableStore × Except PyErr Unit
  | store, [] => (store, .ok ())
  | store, (p, a) :: rest =>
    match store.set p a false with
    | .ok s' => bindParams s' rest
    | .error e => (store, .error e)

/-- `PluginManager.execute_operation` (`plugin_manager.py:223`).

Dispatch order: the built-in operation table is consulted first; else the
user-function registry; else `ValueError: Unknown operation`.  Both
dispatch paths substitute variables into the arguments first.  User
function dispatch checks the arity *before* touching the scope stack,
then pushes one scope, binds each parameter to its argument in that scope,
whitespace-tokenizes the body into `(bodyOp, bodyArgs…)`, recursively
executes it (with no keyword arguments), and pops the scope on success
and failure alike (`try`/`finally`).

`fuel` bounds the recursion depth; exhausting it models Python's
`RecursionError` (which likewise propagates through every `finally`). -/
def execute_operation (pm : PluginManager) (reg : FunctionRegistry) :
    Nat → VariableStore → String → List Value → Dict Value →
    VariableStore × Except PyErr Value
  | 0, store, _, _, _ =>
    (store, .error ⟨"RecursionError", "maximum recursion depth exceeded"⟩)
  | fuel + 1, store, operation_name, args, kwargs =>
    match dictLookup pm.operations operation_name with
    | some opClass =>
      let s := substitute_variables pm store args kwargs
      opClass.exec store s.1 s.2
    | none =>
      match dictLookup reg.functions operation_name with
      | some func =>
        let s := substitute_variables pm store args kwargs
        if s.1.length ≠ func.parameters.length then
          (store, .error ⟨"ValueError",
            "Function '" ++ operation_name ++ "' expects "
              ++ toString func.parameters.length ++ " argument(s), got "
              ++ toString s.1.length⟩)
        else
          let store1 := store.push_scope
          let inner : VariableStore × Except PyErr Value :=
            match bindParams store1 (func.parameters.zip s.1) with
            | (s2, .error e) => (s2, .error e)
            | (s2, .ok ()) =>
              match pySplitWS func.body with
              | [] => (s2, .error ⟨"ValueError",
                  "Function '" ++ operation_name ++ "' has empty body"⟩)
              | bodyOp :: bodyArgs =>
                execute_operation pm reg fuel s2 bodyOp (bodyArgs.map Value.vstr) []
          (inner.1.pop_scope, inner.2)
      | none =>
        (store, .error ⟨"ValueError", "Unknown operation: " ++ operation_name⟩)

/-! ## The script runner (`cli/script_runner.py`) -/

/-- Python's `str(result)` for the values of the model (`str` of a float is
rendered from the exact rational; the shortest-round-trip decimal form of
IEEE-754 is not modelled, and no verified claim inspects it). -/
def pyStr (v : Value) : String :=
  match v with
  | .vnone => "None"
  | .vint n => toString n
  | .vfloat q => toString q.mantissa ++ "e" ++ toString q.exp10
  | .vbool b => if b then "True" else "False"
  | .vstr s => s

/-- `ScriptRunner.parse_line` (`script_runner.py:26`): strip whitespace,
skip empty lines and `#` comments, whitespace-tokenize into the operation
name and its arguments. -/
def parse_line (line : String) : Option (String × List String) :=
  let line := pyStrip line
  if line = "" then none
  else if startsWithChar line '#' then none
  else
    match pySplitWS line with
    | [] => none
    | operation :: args => some (operation, args)

/-- `ScriptRunner.execute_line` (`script_runner.py:56`): parse the line,
execute the operation, render a non-`None` result with `str`, and wrap any
raised exception into a `RuntimeError` naming the line, the exception's
type and its message. -/
def execute_line (pm : PluginManager) (reg : FunctionRegistry) (fuel : Nat)
    (store : VariableStore) (line : String) (line_number : Nat) :
    VariableStore × Except PyErr (Option String) :=
  match parse_line line with
  | none => (store, .ok none)
  | some (operation, args) =>
    let r := execute_operation pm reg fuel store operation (args.map Value.vstr) []
    match r.2 with
    | .ok v => (r.1, .ok (if v = Value.vnone then none else some (pyStr v)))
    | .error e =>
      (r.1, .error ⟨"RuntimeError",
        "Error on line " ++ toString line_number ++ ": " ++ line
          ++ "\n  " ++ e.ty ++ ": " ++ e.msg⟩)

/-- The result dictionary returned by `ScriptRunner.run_script` /
`run_script_string`: `{success, lines_executed, outputs, error}` (the
`error` entry holds `str(e)`, the message of the wrapping `RuntimeError`). -/
structure ScriptResult where
  success : Bool
  lines_executed : Nat
  outputs : List String
  error : Option String
  deriving Repr, DecidableEq

/-- The line loop of `ScriptRunner.run_script_string` (`script_runner.py:186`),
with the scope pop written on each exit path exactly as in the source:
once when the lines are exhausted (success) and once when a line raises
(failure result, nothing re-raised to the caller).  Lines yielding `None`
(blank/comment lines) are not counted or collected. -/
def run_lines (pm : PluginManager) (reg : FunctionRegistry) (fuel : Nat) :
    VariableStore → List String → Nat → Nat → List String →
    VariableStore × ScriptResult
  | store, [], _, lines_executed, outputs =>
    (store.pop_scope, ⟨true, lines_executed, outputs, none⟩)
  | store, line :: rest, line_num, lines_executed, outputs =>
    match execute_line pm reg fuel store line line_num with
    | (store', .error e) =>
      (store'.pop_scope, ⟨false, lines_executed, outputs, some e.msg⟩)
    | (store', .ok none) =>
      run_lines pm reg fuel store' rest (line_num + 1) lines_executed outputs
    | (store', .ok (some out)) =>
      run_lines pm reg fuel store' rest (line_num + 1) (lines_executed + 1)
        (outputs ++ [out])

/-- `ScriptRunner.run_script_string` (`script_runner.py:168`): split the
script on newlines, push one scope for the whole run, and execute the
lines in order from line number 1.  (`run_script` is the same loop fed
from a file; the file reading is I/O and not modelled.) -/
def run_script_string (pm : PluginManager) (reg : FunctionRegistry) (fuel : Nat)
    (store : VariableStore) (script_content : String) :
    VariableStore × ScriptResult :=
  run_lines pm reg fuel store.push_scope (pySplitLines script_content) 1 0 []

/-! ## Plugin discovery over a user directory
(`PluginManager._load_external_plugins`, `plugin_manager.py:42`)

A directory entry is modelled by its file name, whether it is a regular
file, the outcome of the `_is_name_conflicting` security check on its
stem, and the outcome of importing it: `ImportError` (covering every
exception `exec_module` surfaces, re-raised as `ImportError` by
`_import_module_from_path`) or the list of `MathOperation` members the
module declares.  The importlib machinery itself is the environment and is
abstracted into `import_result`. -/

structure PluginFile where
  name : String
  is_file : Bool
  conflicting : Bool
  import_result : Except String (List OpClass)

/-- The outcome of a discovery pass: the updated manager, the messages
printed (in order), and the names of the files whose import was actually
attempted (in order). -/
structure LoadResult where
  pm : PluginManager
  messages : List String
  imported : List String

/-- `PluginManager._register_operations_from_module`
(`plugin_manager.py:130`): register every operation class of the module;
a `TypeError`/`ValueError` from `register_operation` is printed and
skipped without aborting the loop. -/
def register_operations_from_module (pm : PluginManager) :
    List OpClass → PluginManager × List String
  | [] => (pm, [])
  | op :: rest =>
    match register_operation pm op with
    | .ok pm' => register_operations_from_module pm' rest
    | .error e =>
      let r := register_operations_from_module pm rest
      (r.1, ("Error registering operation: " ++ e.msg) :: r.2)

/-- `PluginManager._load_external_plugins` (`plugin_manager.py:42`).

For each `*.py` entry of the directory (the glob), in order: skip
non-regular files; skip `__init__.py` and `plugin_template.py`; skip names
not ending in `_plugin.py`; skip (with a message) names failing the
collision check; then attempt the import, printing and skipping the file
on `ImportError`, else registering its operations.  The pass always
processes every entry: no failure aborts it. -/
def load_external_plugins (pm : PluginManager) :
    List PluginFile → LoadResult
  | [] => ⟨pm, [], []⟩
  | f :: rest =>
    if ¬ strEndsWith f.name ".py" then load_external_plugins pm rest
    else if ¬ f.is_file then load_external_plugins pm rest
    else if f.name = "__init__.py" ∨ f.name = "plugin_template.py" then
      load_external_plugins pm rest
    else if ¬ strEndsWith f.name "_plugin.py" then load_external_plugins pm rest
    else if f.conflicting then
      let r := load_external_plugins pm rest
      ⟨r.pm, ("Skipping plugin " ++ f.name ++ ": name collides with existing module")
        :: r.messages, r.imported⟩
    else
      match f.import_result with
      | .error e =>
        let r := load_external_plugins pm rest
        ⟨r.pm, ("Error importing plugin " ++ f.name ++ ": " ++ e) :: r.messages,
          f.name :: r.imported⟩
      | .ok ops =>
        let reg := register_operations_from_module pm ops
        let r := load_external_plugins reg.1 rest
        ⟨r.pm, reg.2 ++ r.messages, f.name :: r.imported⟩

/-! ## Helper lemmas -/

/-- First defined entry of a list of optional results: the resolution
order of a tiered lookup. -/
def firstSome {α : Type} : List (Option α) → Option α
  | [] => none
  | some v :: _ => some v
  | none :: rest => firstSome rest

theorem firstSome_append {α : Type} (l₁ l₂ : List (Option α)) :
    firstSome (l₁ ++ l₂) =
      match firstSome l₁ with
      | some v => some v
      | none => firstSome l₂ := by
  induction l₁ with
  | nil => simp [firstSome]
  | cons h t ih =>
    cases h with
    | none => simpa [firstSome] using ih
    | some v => simp [firstSome]

theorem lookupScopes_eq_firstSome (scopes : List (Dict Value)) (n : String) :
    VariableStore.lookupScopes scopes n =
      firstSome (scopes.map (fun sc => dictLookup sc n)) := by
  induction scopes with
  | nil => rfl
  | cons sc rest ih =>
    simp only [VariableStore.lookupScopes, List.map_cons]
    cases h : dictLookup sc n with
    | none => simpa [firstSome, h] using ih
    | some v => simp [firstSome, h]

theorem lookupScopes_isSome (scopes : List (Dict Value)) (n : String) :
    (VariableStore.lookupScopes scopes n).isSome
      = scopes.any (fun sc => dictHas sc n) := by
  induction scopes with
  | nil => rfl
  | cons sc rest ih =>
    simp only [VariableStore.lookupScopes, List.any_cons]
    cases h : dictLookup sc n with
    | none => simp [dictHas, h, ih]
    | some v => simp [dictHas, h]

theorem lookupScopes_eq_none_forall {scopes : List (Dict Value)} {n : String}
    (h : VariableStore.lookupScopes scopes n = none) :
    ∀ sc ∈ scopes, dictLookup sc n = none := by
  induction scopes with
  | nil => intro sc hmem; cases hmem
  | cons sc0 rest ih =>
    intro sc hmem
    rw [VariableStore.lookupScopes] at h
    cases hx : dictLookup sc0 n with
    | some v => rw [hx] at h; cases h
    | none =>
      rw [hx] at h
      cases hmem with
      | head => exact hx
      | tail _ hmem => exact ih h sc hmem

theorem lookupScopes_eq_some_exists {scopes : List (Dict Value)} {n : String} {v : Value}
    (h : VariableStore.lookupScopes scopes n = some v) :
    ∃ sc ∈ scopes, dictLookup sc n = some v := by
  induction scopes with
  | nil => cases h
  | cons sc0 rest ih =>
    rw [VariableStore.lookupScopes] at h
    cases hx : dictLookup sc0 n with
    | some w =>
      rw [hx] at h
      cases h
      exact ⟨sc0, List.mem_cons_self _ _, hx⟩
    | none =>
      rw [hx] at h
      obtain ⟨sc, hmem, hsc⟩ := ih h
      exact ⟨sc, List.mem_cons_of_mem _ hmem, hsc⟩

theorem dictLookup_insert_self {α : Type} (d : Dict α) (k : String) (v : α) :
    dictLookup (dictInsert d k v) k = some v := by
  induction d with
  | nil => simp [dictInsert, dictLookup]
  | cons kv rest ih =>
    by_cases h : kv.1 = k
    · simp [dictInsert, dictLookup, h]
    · simp [dictInsert, dictLookup, h, ih]

theorem dictLookup_mem {α : Type} {d : Dict α} {k : String} {v : α}
    (h : dictLookup d k = some v) : (k, v) ∈ d := by
  induction d with
  | nil => simp [dictLookup] at h
  | cons kv rest ih =>
    obtain ⟨a, b⟩ := kv
    by_cases hk : a = k
    · subst hk
      simp only [dictLookup, if_pos rfl] at h
      cases h
      exact List.mem_cons_self _ _
    · simp only [dictLookup, if_neg hk] at h
      exact List.mem_cons_of_mem _ (ih h)

/-! ## Claims -/

/-- **C5.**  `VariableStore.get` resolves a name by searching the scope
stack innermost frame first (the head of the modelled stack), then the
global table, then the persistent table, returning the first binding found
in that tier order, and fails (`none`, the modelled `UndefinedVariable` /
`NameError`) exactly when the name is bound in no frame and no table;
`has` follows the same order and, being a pure function of the store,
has no side effects: it agrees with definedness of `get`. -/
theorem get_resolves_in_tier_order (store : VariableStore) (name : String) :
    store.get name =
      firstSome ((store.scope_stack.map (fun sc => dictLookup sc (stripSigil name)))
        ++ [dictLookup store.global_vars (stripSigil name),
            dictLookup store.persistent_vars (stripSigil name)])
    ∧ (store.get name = none ↔
        ((∀ sc ∈ store.scope_stack, dictHas sc (stripSigil name) = false)
          ∧ dictHas store.global_vars (stripSigil name) = false
          ∧ dictHas store.persistent_vars (stripSigil name) = false))
    ∧ store.has name = (store.get name).isSome := by
  refine ⟨?_, ?_, ?_⟩
  · rw [VariableStore.get, firstSome_append, ← lookupScopes_eq_firstSome]
    cases hs : VariableStore.lookupScopes store.scope_stack (stripSigil name) with
    | some v => rfl
    | none =>
      cases hg : dictLookup store.global_vars (stripSigil name) with
      | some v => simp [firstSome]
      | none =>
        cases hp : dictLookup store.persistent_vars (stripSigil name) with
        | some v => simp [firstSome]
        | none => simp [firstSome]
  · rw [VariableStore.get]
    cases hs : VariableStore.lookupScopes store.scope_stack (stripSigil name) with
    | some v =>
      obtain ⟨sc, hmem, hsc⟩ := lookupScopes_eq_some_exists hs
      simp only []
      constructor
      · intro h
        exact absurd h (by simp)
      · rintro ⟨hA, _, _⟩
        have := hA sc hmem
        rw [dictHas, hsc] at this
        cases this
    | none =>
      have hall := lookupScopes_eq_none_forall hs
      cases hg : dictLookup store.global_vars (stripSigil name) with
      | some v => simp [dictHas, hg]
      | none =>
        cases hp : dictLookup store.persistent_vars (stripSigil name) with
        | some v => simp [dictHas, hg, hp]
        | none =>
          simp [dictHas, hg, hp]
          exact hall
  · rw [VariableStore.has, VariableStore.get]
    cases hs : VariableStore.lookupScopes store.scope_stack (stripSigil name) with
    | some v =>
      obtain ⟨sc, hmem, hsc⟩ := lookupScopes_eq_some_exists hs
      have hany : store.scope_stack.any (fun sc => dictHas sc (stripSigil name)) = true :=
        List.any_eq_true.mpr ⟨sc, hmem, by rw [dictHas, hsc]; rfl⟩
      simp [hany]
    | none =>
      have hall := lookupScopes_eq_none_forall hs
      have hany : store.scope_stack.any (fun sc => dictHas sc (stripSigil name)) = false := by
        rw [← lookupScopes_isSome, hs]
        rfl
      cases hg : dictLookup store.global_vars (stripSigil name) with
      | some v => simp [hany, dictHas, hg]
      | none =>
        cases hp : dictLookup store.persistent_vars (stripSigil name) with
        | some v => simp [hany, dictHas, hg, hp]
        | none =>
          simp [hany, dictHas, hg, hp]
          exact hall

/-- **C7.**  Scope isolation round trip.  From any store and any non-empty
name (the only names `set` accepts), `set(x,1); push_scope(); set(x,2)`
makes `get(x)` return the inner binding `2` — `set` writes to the
innermost active scope, which shadows the outer binding — and after the
matching `pop_scope()`, `get(x)` returns the outer binding `1` again. -/
theorem scope_isolation_roundtrip (store : VariableStore) (name : String)
    (v₁ v₂ : Value) (h : name ≠ "") :
    ∃ s₁ s₂, store.set name v₁ false = .ok s₁
      ∧ s₁.push_scope.set name v₂ false = .ok s₂
      ∧ s₂.get name = some v₂
      ∧ s₂.pop_scope.get name = some v₁ := by
  cases hstack : store.scope_stack with
  | nil =>
    refine ⟨{ store with global_vars := dictInsert store.global_vars (stripSigil name) v₁ },
      { store with
          global_vars := dictInsert store.global_vars (stripSigil name) v₁,
          scope_stack := [dictInsert [] (stripSigil name) v₂] }, ?_, ?_, ?_, ?_⟩
    · simp [VariableStore.set, h, hstack]
    · simp [VariableStore.set, VariableStore.push_scope, h, hstack]
    · simp [VariableStore.get, VariableStore.lookupScopes, dictLookup_insert_self]
    · simp [VariableStore.pop_scope, VariableStore.get, VariableStore.lookupScopes,
        hstack, dictLookup_insert_self]
  | cons top rest =>
    refine ⟨{ store with scope_stack := dictInsert top (stripSigil name) v₁ :: rest },
      { store with scope_stack :=
          dictInsert [] (stripSigil name) v₂
            :: dictInsert top (stripSigil name) v₁ :: rest }, ?_, ?_, ?_, ?_⟩
    · simp [VariableStore.set, h, hstack]
    · simp [VariableStore.set, VariableStore.push_scope, h]
    · simp [VariableStore.get, VariableStore.lookupScopes, dictLookup_insert_self]
    · simp [VariableStore.pop_scope, VariableStore.get, VariableStore.lookupScopes,
        dictLookup_insert_self]

/-- Witness for `scope_isolation_roundtrip` at the spec's own example:
name `x`, values `1` and `2`, starting from an empty store. -/
theorem scope_isolation_roundtrip_witness :
    ("x" : String) ≠ "" ∧
      ∃ s₁ s₂, (⟨[], [], []⟩ : VariableStore).set "x" (.vint 1) false = .ok s₁
        ∧ s₁.push_scope.set "x" (.vint 2) false = .ok s₂
        ∧ s₂.get "x" = some (.vint 2)
        ∧ s₂.pop_scope.get "x" = some (.vint 1) :=
  ⟨by decide, scope_isolation_roundtrip ⟨[], [], []⟩ "x" (.vint 1) (.vint 2) (by decide)⟩

/-- **C2, counterexample.**  The claim "whenever `has(name)` is true,
`delete(name)` succeeds" is false: with a scope stack whose *innermost*
frame is empty while an *outer* frame binds `x`, `has("x")` is true (it
searches every frame) but `delete("x")` raises `NameError` — `delete`
inspects only the innermost frame (`self._scope_stack[-1]`), then the
global and persistent tables, and never the outer frames. -/
theorem delete_can_fail_while_has_is_true :
    VariableStore.has ⟨[], [[], [("x", .vint 1)]], []⟩ "x" = true
      ∧ VariableStore.delete ⟨[], [[], [("x", .vint 1)]], []⟩ "x"
          = .error ⟨"NameError", "Variable '$x' is not defined"⟩ :=
  ⟨by decide, by rfl⟩

/-- **C2, amended.**  `delete(name)` removes the binding from the first of
exactly three places — the *innermost scope frame only*, then the global
table, then the persistent table — and fails with `NameError`
(UndefinedVariable) when the name is in none of those three, even if
`has(name)` is true because an outer scope frame binds the name. -/
theorem delete_searches_innermost_then_global_then_persistent
    (store : VariableStore) (name : String) :
    (∀ top rest, store.scope_stack = top :: rest →
        dictHas top (stripSigil name) = true →
        store.delete name
          = .ok { store with scope_stack := dictErase top (stripSigil name) :: rest })
    ∧ ((∀ top rest, store.scope_stack = top :: rest →
          dictHas top (stripSigil name) = false) →
        dictHas store.global_vars (stripSigil name) = true →
        store.delete name
          = .ok { store with global_vars := dictErase store.global_vars (stripSigil name) })
    ∧ ((∀ top rest, store.scope_stack = top :: rest →
          dictHas top (stripSigil name) = false) →
        dictHas store.global_vars (stripSigil name) = false →
        dictHas store.persistent_vars (stripSigil name) = true →
        store.delete name
          = .ok { store with
              persistent_vars := dictErase store.persistent_vars (stripSigil name) })
    ∧ ((∀ top rest, store.scope_stack = top :: rest →
          dictHas top (stripSigil name) = false) →
        dictHas store.global_vars (stripSigil name) = false →
        dictHas store.persistent_vars (stripSigil name) = false →
        store.delete name
          = .error ⟨"NameError", "Variable '$" ++ stripSigil name ++ "' is not defined"⟩) := by
  refine ⟨?_, ?_, ?_, ?_⟩
  · intro top rest hstack htop
    simp [VariableStore.delete, hstack, htop]
  · intro htops hg
    cases hstack : store.scope_stack with
    | nil => simp [VariableStore.delete, hstack, hg]
    | cons top rest => simp [VariableStore.delete, hstack, htops top rest hstack, hg]
  · intro htops hg hp
    cases hstack : store.scope_stack with
    | nil => simp [VariableStore.delete, hstack, hg, hp]
    | cons top rest =>
      simp [VariableStore.delete, hstack, htops top rest hstack, hg, hp]
  · intro htops hg hp
    cases hstack : store.scope_stack with
    | nil => simp [VariableStore.delete, hstack, hg, hp]
    | cons top rest =>
      simp [VariableStore.delete, hstack, htops top rest hstack, hg, hp]

/-- Witness for `delete_searches_innermost_then_global_then_persistent`:
deleting `x` bound in the innermost frame of a one-frame stack removes
that binding. -/
theorem delete_searches_tiers_witness :
    VariableStore.delete ⟨[("y", .vint 2)], [[("x", .vint 1)]], []⟩ "x"
      = .ok ⟨[("y", .vint 2)], [[]], []⟩ :=
  (delete_searches_innermost_then_global_then_persistent
    ⟨[("y", .vint 2)], [[("x", .vint 1)]], []⟩ "x").1 [("x", .vint 1)] [] rfl (by decide)

/-- When `set` succeeds it either leaves the scope stack untouched (no
active scope: the binding went to the global table) or replaces the
innermost frame by the frame with the new binding. -/
theorem set_ok_cases {s : VariableStore} {name : String} {v : Value} {p : Bool}
    {s' : VariableStore} (h : s.set name v p = .ok s') :
    s'.scope_stack = s.scope_stack
      ∨ ∃ top rest, s.scope_stack = top :: rest
          ∧ s'.scope_stack = dictInsert top (stripSigil name) v :: rest := by
  rw [VariableStore.set] at h
  by_cases hn : name = ""
  · rw [if_pos hn] at h
    cases h
  · rw [if_neg hn] at h
    cases hstack : s.scope_stack with
    | nil =>
      rw [hstack] at h
      cases p with
      | false =>
        simp only [Bool.false_eq_true, if_false, Except.ok.injEq] at h
        subst h
        exact Or.inl rfl
      | true =>
        simp only [if_true, Except.ok.injEq] at h
        subst h
        exact Or.inl rfl
    | cons top rest =>
      rw [hstack] at h
      cases p with
      | false =>
        simp only [Bool.false_eq_true, if_false, Except.ok.injEq] at h
        subst h
        exact Or.inr ⟨top, rest, rfl, rfl⟩
      | true =>
        simp only [if_true, Except.ok.injEq] at h
        subst h
        exact Or.inr ⟨top, rest, rfl, rfl⟩

/-- `set` never changes the depth of the scope stack. -/
theorem set_scope_length {s : VariableStore} {name : String} {v : Value} {p : Bool}
    {s' : VariableStore} (h : s.set name v p = .ok s') :
    s'.scope_stack.length = s.scope_stack.length := by
  rcases set_ok_cases h with heq | ⟨top, rest, hstack, heq⟩
  · rw [heq]
  · rw [heq, hstack]
    rfl

/-- The parameter-binding loop never changes the depth of the scope stack,
whether it completes or aborts on a raised `ValueError`. -/
theorem bindParams_scope_length (l : List (String × Value)) :
    ∀ s : VariableStore, ((bindParams s l).1).scope_stack.length = s.scope_stack.length := by
  induction l with
  | nil => intro s; rfl
  | cons pa rest ih =>
    intro s
    rw [bindParams]
    cases hset : s.set pa.1 pa.2 false with
    | error e => rfl
    | ok s' => rw [ih s', set_scope_length hset]

/-- A registered operation implementation that leaves the scope stack at
the depth it found it (every shipped built-in does: most never touch the
store, and the variable/function/script operations bracket their own
pushes with pops). -/
def DepthPreserving (op : OpClass) : Prop :=
  ∀ s args kwargs, ((op.exec s args kwargs).1).scope_stack.length = s.scope_stack.length

/-- **C1.**  Provided every registered built-in is depth-preserving,
`execute_operation` leaves the scope stack at the depth it had on entry on
*every* path — result or error: built-in dispatch pushes no scope itself;
user-function dispatch pushes exactly one scope, binds the parameters in
it, recursively executes the whitespace-tokenized body, and pops that
scope unconditionally before returning or propagating (the `finally`),
and the arity check happens before the push. -/
theorem execute_operation_preserves_scope_depth (pm : PluginManager)
    (reg : FunctionRegistry)
    (h : ∀ p ∈ pm.operations, DepthPreserving p.2) :
    ∀ (fuel : Nat) (store : VariableStore) (opName : String)
      (args : List Value) (kwargs : Dict Value),
      ((execute_operation pm reg fuel store opName args kwargs).1).scope_stack.length
        = store.scope_stack.length := by
  intro fuel
  induction fuel with
  | zero => intro store opName args kwargs; rfl
  | succ fuel ih =>
    intro store opName args kwargs
    rw [execute_operation]
    cases hop : dictLookup pm.operations opName with
    | some opClass =>
      exact h _ (dictLookup_mem hop) store _ _
    | none =>
      cases hfn : dictLookup reg.functions opName with
      | some func =>
        simp only []
        by_cases hlen :
            (substitute_variables pm store args kwargs).1.length = func.parameters.length
        · rw [if_neg (by simp [hlen])]
          have hinner :
              ∀ inner : VariableStore × Except PyErr Value,
                inner.1.scope_stack.length = store.scope_stack.length + 1 →
                ((inner.1.pop_scope, inner.2) :
                    VariableStore × Except PyErr Value).1.scope_stack.length
                  = store.scope_stack.length := by
            intro inner hlen1
            simp only [VariableStore.pop_scope, List.length_tail, hlen1,
              Nat.add_sub_cancel]
          apply hinner
          cases hb : bindParams store.push_scope
              (func.parameters.zip (substitute_variables pm store args kwargs).1) with
          | mk s2 res =>
            have hs2 : s2.scope_stack.length = store.scope_stack.length + 1 := by
              have := bindParams_scope_length
                (func.parameters.zip (substitute_variables pm store args kwargs).1)
                store.push_scope
              rw [hb] at this
              exact this
            cases res with
            | error e => exact hs2
            | ok u =>
              cases u
              cases hsplit : pySplitWS func.body with
              | nil => exact hs2
              | cons bodyOp bodyArgs => rw [ih, hs2]
        · rw [if_pos (by simp [hlen])]
      | none => rfl

/-! ## Concrete operations used by the witnesses

`setOp` is the model of `SetVariableOperation` from
`plugins/variable_plugin.py` (the spec's own examples use it); `addOp`
abstracts the arithmetic built-ins, which never touch the store. -/

/-- The string-to-type coercion inside `SetVariableOperation.execute`
(`variable_plugin.py:37`): like `_convert_string_to_type` but also mapping
`yes`/`no` to booleans. -/
def setOpConvert (s : String) : Value :=
  let boolOrStr : Value :=
    if pyLower s = "true" ∨ pyLower s = "yes" then .vbool true
    else if pyLower s = "false" ∨ pyLower s = "no" then .vbool false
    else .vstr s
  if ¬ strContainsChar s '.' ∧ ¬ strContainsChar (pyLower s) 'e' then
    match pyParseInt s with
    | some n => .vint n
    | none => boolOrStr
  else
    match pyParseFloat s with
    | some q => .vfloat q
    | none => boolOrStr

/-- The body of `SetVariableOperation.execute` (`variable_plugin.py:19`):
strip the sigil, coerce a string value, `store.set(name, value)` (not
persistent), and return the confirmation string. -/
def setOpCore (s : VariableStore) (nameArg : String) (v : Value) :
    VariableStore × Except PyErr Value :=
  let nm := stripSigil nameArg
  let v' := match v with
    | .vstr str => setOpConvert str
    | w => w
  match s.set nm v' false with
  | .ok s' => (s', .ok (.vstr ("$" ++ nm ++ " = " ++ VariableStore.format_value v')))
  | .error e => (s, .error e)

/-- The `set` built-in (`SetVariableOperation`); a call with anything but
two positional arguments, the first a string, is a Python `TypeError`. -/
def setOp : OpClass :=
  ⟨"set", fun s args _ =>
    match args with
    | [.vstr nameArg, v] => setOpCore s nameArg v
    | _ => (s, .error ⟨"TypeError", "set() takes 2 positional arguments"⟩)⟩

/-- An arithmetic built-in: a pure function of its arguments that never
touches the store (like the operations of `plugins/core_math.py`). -/
def addOp : OpClass :=
  ⟨"add", fun s args _ =>
    (s, match args with
        | [.vint a, .vint b] => .ok (.vint (a + b))
        | _ => .error ⟨"TypeError", "unsupported operand type(s)"⟩)⟩

/-- Witness fixture: a manager with the `add` and `set` built-ins. -/
def pmDemo : PluginManager := { operations := [("add", addOp), ("set", setOp)] }

/-- Witness fixture: a registry with the spec's `square(x) = add $x $x`. -/
def regDemo : FunctionRegistry := ⟨[("square", ⟨"square", ["x"], "add $x $x", none⟩)]⟩

/-- Witness fixture: an empty store. -/
def demoStore : VariableStore := ⟨[], [], []⟩

/-- Witness fixture: a registry holding a user function named `add`,
shadowed by the built-in of the same name. -/
def regShadow : FunctionRegistry := ⟨[("add", ⟨"add", ["x"], "add $x $x", none⟩)]⟩

theorem setOpCore_scope_length (s : VariableStore) (nameArg : String) (v : Value) :
    ((setOpCore s nameArg v).1).scope_stack.length = s.scope_stack.length := by
  simp only [setOpCore]
  cases hset : s.set (stripSigil nameArg)
      (match v with
        | .vstr str => setOpConvert str
        | w => w) false with
  | ok s' => exact set_scope_length hset
  | error e => rfl

theorem addOp_depthPreserving : DepthPreserving addOp :=
  fun _ _ _ => rfl

theorem setOp_depthPreserving : DepthPreserving setOp := by
  intro s args kw
  rcases args with _ | ⟨a, args⟩
  · rfl
  rcases args with _ | ⟨b, args⟩
  · cases a <;> rfl
  rcases args with _ | ⟨c, args⟩
  · cases a <;> first
      | rfl
      | exact setOpCore_scope_length s _ b
  · cases a <;> rfl

theorem pmDemo_depthPreserving : ∀ p ∈ pmDemo.operations, DepthPreserving p.2 := by
  intro p hp
  simp only [pmDemo, List.mem_cons, List.not_mem_nil, or_false] at hp
  rcases hp with rfl | rfl
  · exact addOp_depthPreserving
  · exact setOp_depthPreserving

/-- Witness for `execute_operation_preserves_scope_depth`: running the
user function `square` (which pushes and pops a scope) on the demo
manager leaves the scope stack at its entry depth. -/
theorem execute_preserves_scope_depth_witness :
    ((execute_operation pmDemo regDemo 10 demoStore "square" [.vstr "3"] []).1).scope_stack.length
      = demoStore.scope_stack.length :=
  execute_operation_preserves_scope_depth pmDemo regDemo pmDemo_depthPreserving
    10 demoStore "square" [.vstr "3"] []

/-- **C8.**  Invoking a defined user function (the name is not a built-in)
with a substituted-argument count different from its parameter count fails
with the `ValueError` whose message states the expected and the got
counts, and the store is returned exactly as it was — no scope pushed, no
parameter bound (the check precedes `push_scope`).  With exactly the right
count, execution proceeds to the whitespace-tokenized body: the result is
the recursive execution of `(bodyOp, bodyArgs…)` in the pushed-and-bound
scope, that scope being popped afterwards. -/
theorem arity_mismatch_fails_before_scope_push (pm : PluginManager)
    (reg : FunctionRegistry) (fuel : Nat) (store : VariableStore)
    (opName : String) (args : List Value) (kwargs : Dict Value) (func : UserFunction)
    (hop : dictLookup pm.operations opName = none)
    (hfn : dictLookup reg.functions opName = some func) :
    ((substitute_variables pm store args kwargs).1.length ≠ func.parameters.length →
      execute_operation pm reg (fuel + 1) store opName args kwargs
        = (store, .error ⟨"ValueError",
            "Function '" ++ opName ++ "' expects "
              ++ toString func.parameters.length ++ " argument(s), got "
              ++ toString (substitute_variables pm store args kwargs).1.length⟩))
    ∧ ((substitute_variables pm store args kwargs).1.length = func.parameters.length →
        ∀ (s2 : VariableStore) (bodyOp : String) (bodyArgs : List String),
          bindParams store.push_scope
              (func.parameters.zip (substitute_variables pm store args kwargs).1)
            = (s2, .ok ()) →
          pySplitWS func.body = bodyOp :: bodyArgs →
          execute_operation pm reg (fuel + 1) store opName args kwargs
            = (((execute_operation pm reg fuel s2 bodyOp
                  (bodyArgs.map Value.vstr) []).1).pop_scope,
               (execute_operation pm reg fuel s2 bodyOp
                  (bodyArgs.map Value.vstr) []).2)) := by
  constructor
  · intro hne
    rw [execute_operation, hop, hfn]
    simp only [if_pos hne]
  · intro heq s2 bodyOp bodyArgs hbind hsplit
    simp only [execute_operation, hop, hfn, hbind, hsplit]
    rw [if_neg (show ¬ (substitute_variables pm store args kwargs).1.length
        ≠ func.parameters.length by simp [heq])]

/-- Witness for `arity_mismatch_fails_before_scope_push`: `square` with
two arguments fails with the arity message, leaving the store untouched. -/
theorem arity_mismatch_witness :
    execute_operation pmDemo regDemo 10 demoStore "square" [.vstr "1", .vstr "2"] []
      = (demoStore, .error ⟨"ValueError",
          "Function 'square' expects 1 argument(s), got 2"⟩) :=
  (arity_mismatch_fails_before_scope_push pmDemo regDemo 9 demoStore "square"
    [.vstr "1", .vstr "2"] [] ⟨"square", ["x"], "add $x $x", none⟩
    rfl rfl).1 (by decide)

/-- **C6, counterexample.**  The claim "for every name already registered
as a built-in operation, defining a user function under that same name
succeeds without error" is false: `register_operation` accepts any
non-empty operation name (e.g. an external plugin may register `my-op`),
but `FunctionRegistry.define` rejects any name that is not a Python
identifier, so defining `my-op` raises `ValueError` instead of
succeeding. -/
theorem define_rejects_registrable_builtin_name :
    (register_operation { operations := [] }
        ⟨"my-op", fun s _ _ => (s, .ok (.vint 0))⟩).toOption.isSome = true
    ∧ FunctionRegistry.define ⟨[]⟩ "my-op" ["x"] "add $x $x" none
        = .error ⟨"ValueError", "Invalid function name: my-op"⟩ :=
  ⟨rfl, rfl⟩

/-- **C6, amended.**  For every name registered as a built-in operation,
every `execute_operation` on that name dispatches to the built-in
implementation, never to a same-named user function — built-ins are
checked first — regardless of the user-function registry's contents; and
provided the name is a valid Python identifier (as every shipped built-in
name is), defining a user function under that same name succeeds with no
error and no warning, leaving the user function silently unreachable. -/
theorem builtin_shadows_user_function (pm : PluginManager) (reg : FunctionRegistry)
    (opName : String) (op : OpClass) (params : List String) (body : String)
    (fuel : Nat) (store : VariableStore) (args : List Value) (kwargs : Dict Value)
    (hop : dictLookup pm.operations opName = some op)
    (hid : isPyIdentifier opName = true) :
    (∃ reg', FunctionRegistry.define reg opName params body none = .ok reg')
    ∧ execute_operation pm reg (fuel + 1) store opName args kwargs
        = op.exec store (substitute_variables pm store args kwargs).1
            (substitute_variables pm store args kwargs).2 := by
  constructor
  · refine ⟨⟨dictInsert reg.functions opName ⟨opName, params, body, none⟩⟩, ?_⟩
    rw [FunctionRegistry.define]
    rw [if_neg (show ¬ opName = "" by
      intro hemp
      rw [hemp] at hid
      exact absurd hid (by decide))]
    rw [if_neg (by simp [hid])]
  · simp only [execute_operation, hop]

/-- Witness for `builtin_shadows_user_function`: with a user function also
named `add` in the registry, `execute_operation "add"` still runs the
built-in, and defining that user function succeeded in the first place. -/
theorem builtin_shadows_user_function_witness :
    (∃ reg', FunctionRegistry.define regShadow "add" ["x"] "add $x $x" none = .ok reg')
    ∧ execute_operation pmDemo regShadow 10 demoStore "add" [.vstr "1", .vstr "2"] []
        = addOp.exec demoStore
            (substitute_variables pmDemo demoStore [.vstr "1", .vstr "2"] []).1
            (substitute_variables pmDemo demoStore [.vstr "1", .vstr "2"] []).2 :=
  builtin_shadows_user_function pmDemo regShadow "add" addOp ["x"] "add $x $x"
    9 demoStore [.vstr "1", .vstr "2"] [] rfl (by decide)

/-- **C3.**  The substitution pass applied to every argument list (both
dispatch paths call it): with substitution enabled, every positional and
keyword argument is mapped by `substOne`; a string token starting with `$`
is replaced by `VariableStore.get` of the whole token, or passes through
completely unchanged — still bearing the `$`, not coerced — when the
lookup fails; every other string token is coerced by
`_convert_string_to_type`, whose outcome is always one of: an integer
(token parses as a Python `int` and has no `.`/`e`/`E`), a float (token
contains `.` or `e`/`E` and parses as a Python `float`), a boolean (token
lowercases to `true`/`false`), or the original string unchanged; and
non-string tokens pass through unchanged. -/
theorem substitution_pass_spec (pm : PluginManager) (store : VariableStore)
    (args : List Value) (kwargs : Dict Value)
    (h : pm.variable_substitution_enabled = true) :
    (substitute_variables pm store args kwargs
        = (args.map (substOne store), kwargs.map (fun kv => (kv.1, substOne store kv.2))))
    ∧ (∀ s v, startsWithChar s '$' = true → store.get s = some v →
        substOne store (.vstr s) = v)
    ∧ (∀ s, startsWithChar s '$' = true → store.get s = none →
        substOne store (.vstr s) = .vstr s)
    ∧ (∀ s, startsWithChar s '$' = false →
        substOne store (.vstr s) = convert_string_to_type s)
    ∧ (∀ v : Value, (∀ s, v ≠ .vstr s) → substOne store v = v)
    ∧ (∀ s, (∃ n, pyParseInt s = some n
            ∧ strContainsChar s '.' = false ∧ strContainsChar (pyLower s) 'e' = false
            ∧ convert_string_to_type s = .vint n)
        ∨ (∃ q, pyParseFloat s = some q
            ∧ (strContainsChar s '.' = true ∨ strContainsChar (pyLower s) 'e' = true)
            ∧ convert_string_to_type s = .vfloat q)
        ∨ (pyLower s = "true" ∧ convert_string_to_type s = .vbool true)
        ∨ (pyLower s = "false" ∧ convert_string_to_type s = .vbool false)
        ∨ convert_string_to_type s = .vstr s) := by
  refine ⟨?_, ?_, ?_, ?_, ?_, ?_⟩
  · simp [substitute_variables, h]
  · intro s v h1 h2
    simp [substOne, h1, h2]
  · intro s h1 h2
    simp [substOne, h1, h2]
  · intro s h1
    simp [substOne, h1]
  · intro v hv
    cases v with
    | vstr s => exact absurd rfl (hv s)
    | vnone => rfl
    | vint n => rfl
    | vfloat q => rfl
    | vbool b => rfl
  · intro s
    by_cases hdot : strContainsChar s '.' = true
    · cases hf : pyParseFloat s with
      | some q =>
        exact Or.inr (Or.inl ⟨q, rfl, Or.inl hdot,
          by simp [convert_string_to_type, hdot, hf]⟩)
      | none =>
        by_cases ht : pyLower s = "true"
        · exact Or.inr (Or.inr (Or.inl ⟨ht,
            by simp [convert_string_to_type, hdot, hf, ht]⟩))
        by_cases hfa : pyLower s = "false"
        · exact Or.inr (Or.inr (Or.inr (Or.inl ⟨hfa,
            by simp [convert_string_to_type, hdot, hf, ht, hfa]⟩)))
        · exact Or.inr (Or.inr (Or.inr (Or.inr
            (by simp [convert_string_to_type, hdot, hf, ht, hfa]))))
    · by_cases he : strContainsChar (pyLower s) 'e' = true
      · cases hf : pyParseFloat s with
        | some q =>
          exact Or.inr (Or.inl ⟨q, rfl, Or.inr he,
            by simp [convert_string_to_type, hdot, he, hf]⟩)
        | none =>
          by_cases ht : pyLower s = "true"
          · refine Or.inr (Or.inr (Or.inl ⟨ht, ?_⟩))
            have he' := he
            rw [ht] at he'
            simp [convert_string_to_type, hdot, he, he', hf, ht]
          by_cases hfa : pyLower s = "false"
          · refine Or.inr (Or.inr (Or.inr (Or.inl ⟨hfa, ?_⟩)))
            have he' := he
            rw [hfa] at he'
            simp [convert_string_to_type, hdot, he, he', hf, ht, hfa]
          · exact Or.inr (Or.inr (Or.inr (Or.inr
              (by simp [convert_string_to_type, hdot, he, hf, ht, hfa]))))
      · cases hi : pyParseInt s with
        | some n =>
          exact Or.inl ⟨n, rfl, by simpa using hdot, by simpa using he,
            by simp [convert_string_to_type, hdot, he, hi]⟩
        | none =>
          by_cases ht : pyLower s = "true"
          · have he' := he
            rw [ht] at he'
            exact absurd (by decide) he'
          by_cases hfa : pyLower s = "false"
          · have he' := he
            rw [hfa] at he'
            exact absurd (by decide) he'
          · exact Or.inr (Or.inr (Or.inr (Or.inr
              (by simp [convert_string_to_type, hdot, he, hi, ht, hfa]))))

/-- Witness fixture: a store binding the global `x` to `7`. -/
def storeX : VariableStore := ⟨[("x", .vint 7)], [], []⟩

/-- Witness for `substitution_pass_spec`: a bound `$x` is replaced, an
unbound `$y` passes through with its sigil, `5` becomes an integer,
`tRue` a boolean, a non-string is untouched, and a keyword argument
`2.5` becomes a float. -/
theorem substitution_pass_witness :
    substitute_variables pmDemo storeX
        [.vstr "$x", .vstr "$y", .vstr "5", .vstr "tRue", .vint 3]
        [("k", .vstr "2.5")]
      = ([.vint 7, .vstr "$y", .vint 5, .vbool true, .vint 3],
         [("k", .vfloat ⟨25, -1⟩)]) := by
  have h := (substitution_pass_spec pmDemo storeX
    [.vstr "$x", .vstr "$y", .vstr "5", .vstr "tRue", .vint 3]
    [("k", .vstr "2.5")] rfl).1
  rw [h]
  rfl

/-! ## Scope locality: the machinery behind the script-runner claim -/

/-- With an active scope, a (non-persistent) `set` either replaces the
innermost frame by the frame extended with the binding, or raises the
empty-name `ValueError` leaving the store untouched. -/
theorem set_scopeLocal {s : VariableStore} (top : Dict Value) (rest : List (Dict Value))
    (name : String) (v : Value) (hst : s.scope_stack = top :: rest) :
    s.set name v false
        = .ok { s with scope_stack := dictInsert top (stripSigil name) v :: rest }
      ∨ s.set name v false
        = .error ⟨"ValueError", "Variable name must be a non-empty string"⟩ := by
  rw [VariableStore.set]
  by_cases hn : name = ""
  · exact Or.inr (by rw [if_pos hn])
  · rw [if_neg hn, hst]
    exact Or.inl rfl

/-- The parameter-binding loop only ever rewrites the innermost frame. -/
theorem bindParams_scopeLocal (l : List (String × Value)) :
    ∀ (s : VariableStore) (top : Dict Value) (rest : List (Dict Value)),
      s.scope_stack = top :: rest →
      ∃ f, ((bindParams s l).1) = { s with scope_stack := f :: rest } := by
  induction l with
  | nil =>
    intro s top rest hst
    exact ⟨top, by rw [← hst] <;> rfl⟩
  | cons pa l ih =>
    intro s top rest hst
    rw [bindParams]
    rcases set_scopeLocal top rest pa.1 pa.2 hst with hok | herr
    · rw [hok]
      obtain ⟨f, hf⟩ := ih { s with scope_stack := dictInsert top (stripSigil pa.1) pa.2 :: rest }
        (dictInsert top (stripSigil pa.1) pa.2) rest rfl
      exact ⟨f, by rw [hf]⟩
    · rw [herr]
      exact ⟨top, by rw [← hst] <;> rfl⟩

/-- A registered operation implementation that, run with an active scope,
only ever rewrites the innermost frame — it leaves the outer frames, the
global table and the persistent table untouched.  The shipped built-ins
behave this way: arithmetic operations never touch the store and the
(non-persistent) variable operations write through `set`/`delete` into the
innermost tier. -/
def ScopeLocal (op : OpClass) : Prop :=
  ∀ (s : VariableStore) (args : List Value) (kwargs : Dict Value)
    (top : Dict Value) (rest : List (Dict Value)),
    s.scope_stack = top :: rest →
    ∃ f, ((op.exec s args kwargs).1) = { s with scope_stack := f :: rest }

/-- With scope-local built-ins, `execute_operation` called under an active
scope only ever rewrites the innermost frame: user-function dispatch
confines its writes to its own pushed-and-popped scope. -/
theorem execute_operation_scopeLocal (pm : PluginManager) (reg : FunctionRegistry)
    (h : ∀ p ∈ pm.operations, ScopeLocal p.2) :
    ∀ (fuel : Nat) (store : VariableStore) (opName : String)
      (args : List Value) (kwargs : Dict Value)
      (top : Dict Value) (rest : List (Dict Value)),
      store.scope_stack = top :: rest →
      ∃ f, ((execute_operation pm reg fuel store opName args kwargs).1)
        = { store with scope_stack := f :: rest } := by
  intro fuel
  induction fuel with
  | zero =>
    intro store opName args kwargs top rest hst
    exact ⟨top, by rw [← hst] <;> rfl⟩
  | succ fuel ih =>
    intro store opName args kwargs top rest hst
    rw [execute_operation]
    cases hop : dictLookup pm.operations opName with
    | some opClass =>
      exact h _ (dictLookup_mem hop) store _ _ top rest hst
    | none =>
      cases hfn : dictLookup reg.functions opName with
      | some func =>
        simp only []
        by_cases hlen :
            (substitute_variables pm store args kwargs).1.length = func.parameters.length
        · rw [if_neg (by simp [hlen])]
          obtain ⟨f1, hf1⟩ := bindParams_scopeLocal
            (func.parameters.zip (substitute_variables pm store args kwargs).1)
            store.push_scope [] (top :: rest)
            (by rw [VariableStore.push_scope, hst])
          cases hb : bindParams store.push_scope
              (func.parameters.zip (substitute_variables pm store args kwargs).1) with
          | mk s2 res =>
            rw [hb] at hf1
            cases res with
            | error e =>
              refine ⟨top, ?_⟩
              rw [hf1, VariableStore.pop_scope]
              rfl
            | ok u =>
              cases u
              cases hsplit : pySplitWS func.body with
              | nil =>
                refine ⟨top, ?_⟩
                rw [hf1, VariableStore.pop_scope]
                rfl
              | cons bodyOp bodyArgs =>
                have hs2 : s2 = { store.push_scope with scope_stack := f1 :: top :: rest } :=
                  hf1
                obtain ⟨f2, hf2⟩ := ih s2 bodyOp (bodyArgs.map Value.vstr) []
                  f1 (top :: rest) (by rw [hs2])
                refine ⟨top, ?_⟩
                rw [hf2, hs2, VariableStore.pop_scope]
                rfl
        · rw [if_pos (by simp [hlen])]
          exact ⟨top, by rw [← hst] <;> rfl⟩
      | none => exact ⟨top, by rw [← hst] <;> rfl⟩

/-- A single script line, with scope-local built-ins, only ever rewrites
the innermost frame. -/
theorem execute_line_scopeLocal (pm : PluginManager) (reg : FunctionRegistry)
    (fuel : Nat) (h : ∀ p ∈ pm.operations, ScopeLocal p.2)
    (store : VariableStore) (line : String) (line_number : Nat)
    (top : Dict Value) (rest : List (Dict Value))
    (hst : store.scope_stack = top :: rest) :
    ∃ f, ((execute_line pm reg fuel store line line_number).1)
      = { store with scope_stack := f :: rest } := by
  rw [execute_line]
  cases hp : parse_line line with
  | none => exact ⟨top, by rw [← hst] <;> rfl⟩
  | some pa =>
    obtain ⟨op, args⟩ := pa
    obtain ⟨f, hf⟩ := execute_operation_scopeLocal pm reg h fuel store op
      (args.map Value.vstr) [] top rest hst
    refine ⟨f, ?_⟩
    simp only []
    cases hr : (execute_operation pm reg fuel store op (args.map Value.vstr) []).2 with
    | ok v => exact hf
    | error e => exact hf

/-- The loop of `run_script_string` without its scope pops: used to state
where a run stops relative to a decomposition of the line list. -/
def run_lines_nopop (pm : PluginManager) (reg : FunctionRegistry) (fuel : Nat) :
    VariableStore → List String → Nat → Nat → List String →
    VariableStore × ScriptResult
  | store, [], _, lines_executed, outputs =>
    (store, ⟨true, lines_executed, outputs, none⟩)
  | store, line :: rest, line_num, lines_executed, outputs =>
    match execute_line pm reg fuel store line line_num with
    | (store', .error e) =>
      (store', ⟨false, lines_executed, outputs, some e.msg⟩)
    | (store', .ok none) =>
      run_lines_nopop pm reg fuel store' rest (line_num + 1) lines_executed outputs
    | (store', .ok (some out)) =>
      run_lines_nopop pm reg fuel store' rest (line_num + 1) (lines_executed + 1)
        (outputs ++ [out])

/-- The source loop pops the pushed scope exactly once on every exit path:
it equals the pop-free loop followed by a single `pop_scope`. -/
theorem run_lines_eq_nopop (pm : PluginManager) (reg : FunctionRegistry) (fuel : Nat) :
    ∀ (lines : List String) (store : VariableStore) (n k : Nat) (outs : List String),
      run_lines pm reg fuel store lines n k outs
        = (((run_lines_nopop pm reg fuel store lines n k outs).1).pop_scope,
           (run_lines_nopop pm reg fuel store lines n k outs).2) := by
  intro lines
  induction lines with
  | nil => intro store n k outs; rfl
  | cons line rest ih =>
    intro store n k outs
    rw [run_lines, run_lines_nopop]
    cases hel : execute_line pm reg fuel store line n with
    | mk store' res =>
      cases res with
      | error e => rfl
      | ok o =>
        cases o with
        | none => exact ih store' (n + 1) k outs
        | some out => exact ih store' (n + 1) (k + 1) (outs ++ [out])

/-- Splitting the pop-free loop at a decomposition point: if the prefix
completes successfully, the loop continues from its final state with the
line counter advanced by the prefix length. -/
theorem run_lines_nopop_append (pm : PluginManager) (reg : FunctionRegistry) (fuel : Nat) :
    ∀ (pre ls : List String) (store : VariableStore) (n k : Nat) (outs : List String)
      (s1 : VariableStore) (k1 : Nat) (outs1 : List String),
      run_lines_nopop pm reg fuel store pre n k outs = (s1, ⟨true, k1, outs1, none⟩) →
      run_lines_nopop pm reg fuel store (pre ++ ls) n k outs
        = run_lines_nopop pm reg fuel s1 ls (n + pre.length) k1 outs1 := by
  intro pre
  induction pre with
  | nil =>
    intro ls store n k outs s1 k1 outs1 hpre
    rw [run_lines_nopop] at hpre
    injection hpre with h1 h2
    injection h2 with _ h3 h4 _
    subst h1
    subst h3
    subst h4
    rfl
  | cons line pre ih =>
    intro ls store n k outs s1 k1 outs1 hpre
    rw [run_lines_nopop] at hpre
    rw [List.cons_append, run_lines_nopop]
    cases hel : execute_line pm reg fuel store line n with
    | mk store' res =>
      rw [hel] at hpre
      cases res with
      | error e =>
        exact absurd (congrArg (fun r => r.2.success) hpre) (by simp)
      | ok o =>
        cases o with
        | none =>
          have hrec := ih ls store' (n + 1) k outs s1 k1 outs1 hpre
          have harith : n + (line :: pre).length = n + 1 + pre.length := by
            simp only [List.length_cons]
            omega
          rw [harith]
          exact hrec
        | some out =>
          have hrec := ih ls store' (n + 1) (k + 1) (outs ++ [out]) s1 k1 outs1 hpre
          have harith : n + (line :: pre).length = n + 1 + pre.length := by
            simp only [List.length_cons]
            omega
          rw [harith]
          exact hrec

/-- With scope-local built-ins the loop, started under an active scope,
restores the stack below that scope on every exit path (the pop on each
path matches the single push). -/
theorem run_lines_restores (pm : PluginManager) (reg : FunctionRegistry) (fuel : Nat)
    (h : ∀ p ∈ pm.operations, ScopeLocal p.2) :
    ∀ (lines : List String) (store : VariableStore) (top : Dict Value)
      (rest : List (Dict Value)) (n k : Nat) (outs : List String),
      store.scope_stack = top :: rest →
      ((run_lines pm reg fuel store lines n k outs).1)
        = { store with scope_stack := rest } := by
  intro lines
  induction lines with
  | nil =>
    intro store top rest n k outs hst
    rw [run_lines, VariableStore.pop_scope, hst]
    rfl
  | cons line lrest ih =>
    intro store top rest n k outs hst
    rw [run_lines]
    obtain ⟨f, hf⟩ := execute_line_scopeLocal pm reg fuel h store line n top rest hst
    cases hel : execute_line pm reg fuel store line n with
    | mk store' res =>
      rw [hel] at hf
      have hs' : store' = { store with scope_stack := f :: rest } := hf
      cases res with
      | error e =>
        simp only []
        rw [hs', VariableStore.pop_scope]
        rfl
      | ok o =>
        cases o with
        | none =>
          simp only []
          rw [ih store' f rest (n + 1) k outs (by rw [hs']), hs']
        | some out =>
          simp only []
          rw [ih store' f rest (n + 1) (k + 1) (outs ++ [out]) (by rw [hs']), hs']

/-- **C4.**  `run_script_string`, with scope-local built-ins:

* the single scope pushed for the run is popped exactly once on every
  exit path, and nothing the script wrote into it survives: the store
  returned to the caller is *equal* to the store on entry, so a variable
  set by an earlier script line is not visible in the caller's
  environment after the run (built-ins that write elsewhere, e.g.
  persistent writes, are outside the scope-local hypothesis);
* lines run in order and the run stops at the first failing line: if the
  lines decompose as a successfully executed prefix followed by a line
  whose execution raises, the run returns — it does not re-raise — a
  result with `success := false`, the wrapped error message of that line,
  and exactly the outputs collected before the failure. -/
theorem run_script_stops_at_first_failure_and_restores_scope
    (pm : PluginManager) (reg : FunctionRegistry) (fuel : Nat)
    (store : VariableStore) (content : String)
    (hOps : ∀ p ∈ pm.operations, ScopeLocal p.2) :
    ((run_script_string pm reg fuel store content).1 = store)
    ∧ (∀ (pre : List String) (fLine : String) (rest : List String)
        (s1 : VariableStore) (k : Nat) (outs : List String)
        (s2 : VariableStore) (e : PyErr),
        pySplitLines content = pre ++ fLine :: rest →
        run_lines_nopop pm reg fuel store.push_scope pre 1 0 []
          = (s1, ⟨true, k, outs, none⟩) →
        execute_line pm reg fuel s1 fLine (1 + pre.length) = (s2, .error e) →
        run_script_string pm reg fuel store content
          = (s2.pop_scope, ⟨false, k, outs, some e.msg⟩)) := by
  constructor
  · rw [run_script_string]
    rw [run_lines_restores pm reg fuel hOps (pySplitLines content) store.push_scope
      [] store.scope_stack 1 0 [] (by rw [VariableStore.push_scope])]
    rfl
  · intro pre fLine rest s1 k outs s2 e hsplit hpre hfail
    rw [run_script_string, hsplit]
    rw [run_lines_eq_nopop]
    rw [run_lines_nopop_append pm reg fuel pre (fLine :: rest) store.push_scope
      1 0 [] s1 k outs hpre]
    rw [run_lines_nopop, hfail]

theorem addOp_scopeLocal : ScopeLocal addOp := by
  intro s args kw top rest hst
  exact ⟨top, by rw [← hst] <;> rfl⟩

theorem setOpCore_scopeLocal (s : VariableStore) (nameArg : String) (v : Value)
    (top : Dict Value) (rest : List (Dict Value))
    (hst : s.scope_stack = top :: rest) :
    ∃ f, ((setOpCore s nameArg v).1) = { s with scope_stack := f :: rest } := by
  simp only [setOpCore]
  generalize (match v with
    | Value.vstr str => setOpConvert str
    | w => w) = v'
  rcases set_scopeLocal top rest (stripSigil nameArg) v' hst with hok | herr
  · rw [hok]
    exact ⟨_, rfl⟩
  · rw [herr]
    exact ⟨top, by rw [← hst] <;> rfl⟩

theorem setOp_scopeLocal : ScopeLocal setOp := by
  intro s args kw top rest hst
  rcases args with _ | ⟨a, args⟩
  · exact ⟨top, by rw [← hst] <;> rfl⟩
  rcases args with _ | ⟨b, args⟩
  · cases a <;> exact ⟨top, by rw [← hst] <;> rfl⟩
  rcases args with _ | ⟨c, args⟩
  · cases a <;> first
      | exact setOpCore_scopeLocal s _ b top rest hst
      | exact ⟨top, by rw [← hst] <;> rfl⟩
  · cases a <;> exact ⟨top, by rw [← hst] <;> rfl⟩

theorem pmDemo_scopeLocal : ∀ p ∈ pmDemo.operations, ScopeLocal p.2 := by
  intro p hp
  simp only [pmDemo, List.mem_cons, List.not_mem_nil, or_false] at hp
  rcases hp with rfl | rfl
  · exact addOp_scopeLocal
  · exact setOp_scopeLocal

/-- Witness for `run_script_stops_at_first_failure_and_restores_scope`:
the spec's own scenario.  `set x 5` succeeds on line 1, `boom` fails on
line 2; the run returns `success := false` with the one collected output
and the wrapped message, and the caller's store comes back exactly as it
went in — the `x` binding is gone. -/
theorem run_script_first_failure_witness :
    (run_script_string pmDemo regDemo 10 demoStore "set x 5\nboom").1 = demoStore
    ∧ run_script_string pmDemo regDemo 10 demoStore "set x 5\nboom"
        = ((⟨[], [[("x", .vint 5)]], []⟩ : VariableStore).pop_scope,
           ⟨false, 1, ["$x = 5"],
            some "Error on line 2: boom\n  ValueError: Unknown operation: boom"⟩) := by
  have h := run_script_stops_at_first_failure_and_restores_scope pmDemo regDemo 10
    demoStore "set x 5\nboom" pmDemo_scopeLocal
  refine ⟨h.1, ?_⟩
  exact h.2 ["set x 5"] "boom" [] ⟨[], [[("x", .vint 5)]], []⟩ 1 ["$x = 5"]
    ⟨[], [[("x", .vint 5)]], []⟩
    ⟨"RuntimeError", "Error on line 2: boom\n  ValueError: Unknown operation: boom"⟩
    rfl rfl rfl

/-! ## Discovery claims -/

theorem listIsPrefix_of_append (a b : List Char) :
    ∀ l, listIsPrefix (a ++ b) l = true → listIsPrefix a l = true := by
  induction a with
  | nil => intro l _; rfl
  | cons c a ih =>
    intro l h
    cases l with
    | nil => cases h
    | cons d l =>
      rw [List.cons_append, listIsPrefix] at h
      rw [listIsPrefix]
      rw [Bool.and_eq_true] at h
      obtain ⟨h1, h2⟩ := h
      rw [h1, ih l h2]
      rfl

/-- A name ending in `_plugin.py` in particular ends in `.py` (so such a
file survives the `*.py` glob). -/
theorem strEndsWith_py_of_plugin {nm : String}
    (h : strEndsWith nm "_plugin.py" = true) : strEndsWith nm ".py" = true := by
  rw [strEndsWith] at h ⊢
  have hsplit : ("_plugin.py" : String).toList.reverse
      = (".py" : String).toList.reverse ++ ['n', 'i', 'g', 'u', 'l', 'p', '_'] := by
    decide
  rw [hsplit] at h
  exact listIsPrefix_of_append _ _ _ h

/-- **C9.**  A candidate file that fails to import, or whose declared
capability is malformed, is logged and skipped without aborting
discovery:

* a file passing the filename filter and the collision check whose import
  raises is recorded with an `Error importing plugin` message, and the
  rest of the directory is processed exactly as if the file were not
  there — a well-formed sibling still registers its operations;
* calling any operation that ended up unregistered afterwards (and is no
  user function) fails with `Unknown operation`, not with an import
  error;
* inside a module, an operation whose declared name is empty is logged
  and skipped while its siblings are still registered. -/
theorem discovery_skips_failing_file_and_continues (pm : PluginManager)
    (bad : PluginFile) (rest : List PluginFile) (emsg : String)
    (hfile : bad.is_file = true)
    (hname : bad.name ≠ "__init__.py" ∧ bad.name ≠ "plugin_template.py")
    (hsuffix : strEndsWith bad.name "_plugin.py" = true)
    (hconf : bad.conflicting = false)
    (himp : bad.import_result = .error emsg) :
    (load_external_plugins pm (bad :: rest)
      = ⟨(load_external_plugins pm rest).pm,
         ("Error importing plugin " ++ bad.name ++ ": " ++ emsg)
           :: (load_external_plugins pm rest).messages,
         bad.name :: (load_external_plugins pm rest).imported⟩)
    ∧ (∀ (opName : String) (reg : FunctionRegistry) (fuel : Nat)
        (store : VariableStore) (args : List Value) (kwargs : Dict Value),
        dictLookup (load_external_plugins pm (bad :: rest)).pm.operations opName = none →
        dictLookup reg.functions opName = none →
        execute_operation (load_external_plugins pm (bad :: rest)).pm reg (fuel + 1)
            store opName args kwargs
          = (store, .error ⟨"ValueError", "Unknown operation: " ++ opName⟩))
    ∧ (∀ (pm' : PluginManager) (badOp : OpClass) (goodOps : List OpClass),
        badOp.name = "" →
        register_operations_from_module pm' (badOp :: goodOps)
          = ((register_operations_from_module pm' goodOps).1,
             "Error registering operation: Operation does not have a name"
               :: (register_operations_from_module pm' goodOps).2)) := by
  refine ⟨?_, ?_, ?_⟩
  · rw [load_external_plugins]
    rw [if_neg (by simp [strEndsWith_py_of_plugin hsuffix])]
    rw [if_neg (by simp [hfile])]
    rw [if_neg (by simp [hname.1, hname.2])]
    rw [if_neg (by simp [hsuffix])]
    rw [if_neg (by simp [hconf])]
    rw [himp]
  · intro opName reg fuel store args kwargs hop hfn
    rw [execute_operation, hop, hfn]
  · intro pm' badOp goodOps hbad
    rw [register_operations_from_module, register_operation, if_pos hbad]
    rfl

/-- Witness fixture: a plugin file whose import fails. -/
def badFile : PluginFile :=
  ⟨"broken_plugin.py", true, false, .error "No module named 'nope'"⟩

/-- Witness fixture: a well-formed sibling plugin file. -/
def goodFile : PluginFile :=
  ⟨"good_plugin.py", true, false, .ok [⟨"goodop", fun s _ _ => (s, .ok (.vint 1))⟩]⟩

/-- Witness for `discovery_skips_failing_file_and_continues`: the broken
file is logged and skipped, the sibling is still processed, and calling
the broken file's intended operation fails with `Unknown operation`. -/
theorem discovery_skips_failing_file_witness :
    (load_external_plugins { operations := [] } [badFile, goodFile]
      = ⟨(load_external_plugins { operations := [] } [goodFile]).pm,
         ("Error importing plugin " ++ badFile.name ++ ": " ++ "No module named 'nope'")
           :: (load_external_plugins { operations := [] } [goodFile]).messages,
         badFile.name :: (load_external_plugins { operations := [] } [goodFile]).imported⟩)
    ∧ execute_operation (load_external_plugins { operations := [] } [badFile, goodFile]).pm
        ⟨[]⟩ 10 demoStore "broken_op" [] []
      = (demoStore, .error ⟨"ValueError", "Unknown operation: broken_op"⟩) := by
  have h := discovery_skips_failing_file_and_continues { operations := [] } badFile
    [goodFile] "No module named 'nope'" rfl ⟨by decide, by decide⟩ (by decide) rfl rfl
  exact ⟨h.1, h.2.1 "broken_op" ⟨[]⟩ 9 demoStore [] [] rfl rfl⟩

/-- **C10.**  Only regular files whose names end in `_plugin.py` — and are
not `__init__.py` or `plugin_template.py` — are ever considered by
discovery over a user directory.  Any other entry (e.g. `my_custom.py`)
is skipped before the name-collision security check: removing it from the
directory changes nothing — no import is attempted (the `imported` trace
is unchanged), no operation is registered, no message (not even the
collision message, whatever its `conflicting` flag) is printed,
regardless of the entry's content. -/
theorem filename_filter_excludes_non_plugin_files
    (pre : List PluginFile) (f : PluginFile) (post : List PluginFile)
    (hf : f.is_file = false
        ∨ f.name = "__init__.py" ∨ f.name = "plugin_template.py"
        ∨ strEndsWith f.name "_plugin.py" = false) :
    ∀ pm : PluginManager,
      load_external_plugins pm (pre ++ f :: post)
        = load_external_plugins pm (pre ++ post) := by
  induction pre with
  | nil =>
    intro pm
    rw [List.nil_append, List.nil_append, load_external_plugins]
    by_cases h1 : strEndsWith f.name ".py" = true
    · rw [if_neg (by simp [h1])]
      by_cases h2 : f.is_file = true
      · rw [if_neg (by simp [h2])]
        by_cases h3 : f.name = "__init__.py" ∨ f.name = "plugin_template.py"
        · rw [if_pos h3]
        · rw [if_neg h3]
          have h4 : strEndsWith f.name "_plugin.py" = false := by
            rcases hf with hf | hf | hf | hf
            · exact absurd hf (by simp [h2])
            · exact absurd (Or.inl hf) h3
            · exact absurd (Or.inr hf) h3
            · exact hf
          rw [if_pos (by simp [h4])]
      · rw [if_pos h2]
    · rw [if_pos h1]
  | cons p pre ih =>
    intro pm
    simp only [List.cons_append, load_external_plugins]
    simp only [List.append_eq, ih]

/-- Witness fixture: a non-plugin file in the user directory whose name
collides (`conflicting := true`) and which would register an operation if
it were imported. -/
def sneakyFile : PluginFile :=
  ⟨"my_custom.py", true, true, .ok [⟨"sneak", fun s _ _ => (s, .ok (.vint 0))⟩]⟩

/-- Witness for `filename_filter_excludes_non_plugin_files`:
`my_custom.py` contributes nothing — same manager, same messages (no
collision skip message), same imports — as the directory without it. -/
theorem filename_filter_witness :
    load_external_plugins { operations := [] } [sneakyFile, goodFile]
      = load_external_plugins { operations := [] } [goodFile] :=
  filename_filter_excludes_non_plugin_files [] sneakyFile [goodFile]
    (Or.inr (Or.inr (Or.inr (by decide)))) { operations := [] }

end MathCli
